import Mathlib

/-!
# postmail: the form-to-mail request handler

A shallow embedding of `mailer.go` (cloudprivacylabs/postmail): the handler
`Mailer.ServeHTTP`, the helper `eval` and the built-in `DefaultBody` template,
followed by theorems about validation order, the redirect protocol, recipient
construction and rendering.

Collaborators of the handler are modelled at the level of the calls the
handler makes:

* `request.Form` is the `url.Values` produced by `request.ParseForm()`;
* the response is the call made on the `http.ResponseWriter`
  (`WriteHeader`, `http.Redirect`, or nothing at all); what `http.Redirect`
  does with its URL argument before it sets the Location header is net/http's
  business;
* a `Message` records the arguments given to `SetHeader` and `SetBody`; the
  encoding gomail applies to header values is gomail's business;
* `Send` and `ConfigGetter` are the two fields of `Mailer`;
* `text/template` is an `Engine`, a parameter of the handler; `textTemplate`
  implements the fragment of it that the templates of the repository use;
* log output is left out.

A run-time panic is a result of its own: `eval` returns `none` and the handler
ends `panicked`.
-/

set_option autoImplicit false
set_option maxRecDepth 200000

namespace Postmail

/-! ## url.Values -/

/-- Go's `url.Values` (`map[string][]string`) as an association list: the
first entry of a key is the map's entry for that key. -/
abbrev Values := List (String × List String)

namespace Values

/-- Map indexing `v[key]`. -/
def lookup (v : Values) (key : String) : Option (List String) :=
  List.lookup key v

/-- Go's `Values.Get`: the first value associated with the key, and the empty
string when the key has no values. -/
def Get (v : Values) (key : String) : String :=
  match List.lookup key v with
  | some (x :: _) => x
  | _ => ""

/-- Go's `Values.Del`: deletes the values associated with the key. -/
def Del (v : Values) (key : String) : Values :=
  List.filter (fun p => p.1 != key) v

end Values

/-! ## Data model -/

/-- The Go struct `FormCfg`. -/
structure FormCfg where
  From : String
  Domain : String
  Subject : String
  Recipients : List String
  AllowCustomRecipient : Bool
  Honeypot : String
  Body : String
deriving DecidableEq, Repr

/-- The gomail message as the handler fills it: the values given to
`SetHeader` for From, To and Subject, and the arguments of `SetBody`. -/
structure Message where
  From : List String
  To : List String
  Subject : List String
  ContentType : String
  Body : String
deriving DecidableEq, Repr

/-- The rendering context `map[string]interface{}{"config": config, "form": form}`. -/
structure Data where
  config : FormCfg
  form : Values
deriving DecidableEq, Repr

/-- What `t.Execute(&out, data)` leaves behind: the bytes written to the
buffer and the error it returned, if any. -/
structure ExecResult where
  out : String
  err : Option String
deriving DecidableEq, Repr

/-- A parsed `*template.Template`. -/
structure Template where
  Execute : Data → ExecResult

/-- The `text/template` package: `Parse` is `template.New("").Parse`, which
returns a nil template together with an error when the text does not parse. -/
structure Engine where
  Parse : String → Option Template

/-- The Go struct `Mailer`; `Send` returns the error, `none` standing for nil. -/
structure Mailer where
  Send : Message → Option String
  ConfigGetter : String → Option FormCfg

/-- The inbound request: its method and the outcome of `request.ParseForm()`,
`none` when parsing fails and otherwise `request.Form`. -/
structure Request where
  Method : String
  Form : Option Values

/-- The call the handler makes on the response writer. `unwritten` is a handler
that returns without writing: net/http then answers 200 with an empty body. -/
inductive Response where
  | unwritten
  | status (code : Nat)
  | redirect (url : String) (code : Nat)
deriving DecidableEq, Repr

/-- The HTTP status code of a response. -/
def Response.statusCode : Response → Nat
  | Response.unwritten => 200
  | Response.status code => code
  | Response.redirect _ code => code

/-- What one run of the handler did: the response, the messages passed to
`Send` in call order, the rendering context if it was built, and whether the
run ended in a run-time panic (net/http then drops the connection). -/
structure Outcome where
  response : Response
  sent : List Message
  data : Option Data
  panicked : Bool
deriving DecidableEq, Repr

/-! ## mailer.go -/

/-- The constant `DefaultBody`. -/
def DefaultBody : String :=
  "\n\x7b\x7brange $key, $value :=  .form -\x7d\x7d\n\x7b\x7bif eq $key \"ok\" \"err\" \"formId\" \"recipient\" -\x7d\x7d\n\x7b\x7belse -\x7d\x7d\n\x7b\x7b$key\x7d\x7d: \x7b\x7brange $value -\x7d\x7d\n\x7b\x7b.\x7d\x7d\n\n\x7b\x7bend -\x7d\x7d\n\x7b\x7bend -\x7d\x7d\n\x7b\x7bend -\x7d\x7d\n"

/-- The function `eval`. A parse error is logged and `t` stays nil; the call
`t.Execute` then dereferences the nil template, a run-time panic (`none`).
Otherwise the buffer is returned, whatever error `Execute` reported. -/
def eval (E : Engine) (tmpl : String) (data : Data) : Option String :=
  match E.Parse tmpl with
  | none => none
  | some t => some (t.Execute data).out

/-- Go's `strings.Index(s, "@") != -1`. -/
def containsAt (s : String) : Bool :=
  s.toList.contains '@'

/-- A run that answered with `r` before any message was built. -/
def rejected (r : Response) : Outcome :=
  { response := r, sent := [], data := none, panicked := false }

/-- A run that panicked while rendering. -/
def aborted (data : Data) : Outcome :=
  { response := Response.unwritten, sent := [], data := some data, panicked := true }

/-- The method `Mailer.ServeHTTP`. Lengths are only ever compared with zero,
so `len` is the character count. -/
def ServeHTTP (E : Engine) (m : Mailer) (request : Request) : Outcome :=
  if request.Method ≠ "POST" then rejected (Response.status 405)
  else
  match request.Form with
  | none => rejected (Response.status 400)
  | some form0 =>
  let succUrl := form0.Get "ok"
  let succ := if succUrl.length ≠ 0 then Response.redirect succUrl 302 else Response.unwritten
  let form1 : Values := if succUrl.length ≠ 0 then form0.Del "ok" else form0
  let errUrl := form1.Get "err"
  let fail : Nat → Response :=
    if errUrl.length ≠ 0 then Response.redirect errUrl else Response.status
  let form : Values := if errUrl.length ≠ 0 then form1.Del "err" else form1
  let formId := form.Get "formId"
  match m.ConfigGetter formId with
  | none => rejected (fail 404)
  | some config =>
  let recipient := form.Get "recipient"
  if containsAt recipient then rejected (fail 403)
  else if !config.AllowCustomRecipient && decide (recipient.length > 0) then rejected (fail 403)
  else
  let recipient := if recipient.length ≠ 0 then recipient ++ "@" ++ config.Domain else recipient
  if recipient.length = 0 ∧ config.Recipients.length = 0 then rejected (fail 400)
  else if config.Honeypot.length ≠ 0 ∧ (form.Get config.Honeypot).length > 0 then
    rejected (fail 406)
  else
  let data : Data := { config := config, form := form }
  let to_ := config.Recipients ++ (if recipient.length > 0 then [recipient] else [])
  let subject := if config.Subject.length > 0 then eval E config.Subject data
    else some ("From " ++ formId)
  match subject with
  | none => aborted data
  | some subject =>
  let bodyTemplate := if config.Body.length > 0 then config.Body else DefaultBody
  match eval E bodyTemplate data with
  | none => aborted data
  | some body =>
  let msg : Message :=
    { From := [config.From], To := to_, Subject := [subject],
      ContentType := "text/plain", Body := body }
  match m.Send msg with
  | some _ => { response := fail 500, sent := [msg], data := some data, panicked := false }
  | none => { response := succ, sent := [msg], data := some data, panicked := false }

/-! ## The fragment of text/template used by the repository

Templates of the fragment consist of text and of the actions

* `range $k, $v := PIPELINE`, `range $v := PIPELINE`, `range PIPELINE`,
  `if PIPELINE`, `else`, `end`, and `PIPELINE` on its own, which prints;
* a pipeline is an operand, `eq` with two or more operands, or `index` with
  two operands;
* an operand is dot, a variable `$name`, the field chains `.form` and
  `.form.key`, a string constant without escapes, or a decimal number;

with the trim markers on either side of an action. The words of an action are
separated by blanks. Actions are type-checked against the rendering context of
the handler, a map with the entries `config` and `form`: only strings are
printed, `eq` compares strings, `index` takes a list of strings and a number,
`range` runs over the form or over a list of strings, and fields are read from
the rendering context itself.

`parseTemplate` returns `none` for a text that text/template refuses and for a
text outside the fragment; the fuel of the lexer and of the parser is the
length of their input, one unit more than the recursion can use.
-/

/-- Static types of the values a template of the fragment can reach from the
rendering context. -/
inductive Ty where
  | data | form | strs | str | int | bool
deriving DecidableEq, Repr

/-- Run-time values. -/
inductive Val where
  | data (d : Data)
  | form (m : Values)
  | strs (l : List String)
  | str (s : String)
  | int (n : Nat)
  | bool (b : Bool)
deriving DecidableEq, Repr

/-- Arguments of an action. -/
inductive Operand where
  | dot
  | var (name : String)
  | form
  | formKey (key : String)
  | str (s : String)
  | nat (n : Nat)
deriving DecidableEq, Repr

/-- Pipelines: a single operand, a call of `eq`, or a call of `index`. -/
inductive Expr where
  | operand (a : Operand)
  | eq (a : Operand) (bs : List Operand)
  | index (a : Operand) (i : Operand)
deriving DecidableEq, Repr

/-- A list of template nodes; every constructor but `done` carries the rest of
the list in its last argument. -/
inductive Node where
  | done
  | text (s : String) (next : Node)
  | print (e : Expr) (next : Node)
  | cond (e : Expr) (thenList elseList next : Node)
  | range (vars : List String) (e : Expr) (body elseList next : Node)
deriving DecidableEq, Repr

/-- Lexer items: literal text, or the space-separated words of an action. -/
inductive Item where
  | text (s : List Char)
  | action (words : List (List Char))
deriving DecidableEq, Repr

/-- The characters trimmed by the markers. -/
def isSpace (c : Char) : Bool :=
  c = ' ' || c = '\t' || c = '\r' || c = '\n'

/-- Splits at the first place where the character `c` occurs twice in a row. -/
def splitDelim (c : Char) : List Char → Option (List Char × List Char)
  | [] => none
  | a :: rest =>
    match rest with
    | [] => none
    | b :: rest2 =>
      if a = c ∧ b = c then some ([], rest2)
      else
        match splitDelim c rest with
        | none => none
        | some (pre, post) => some (a :: pre, post)

/-- Removes trailing white space. -/
def trimRight (cs : List Char) : List Char :=
  (cs.reverse.dropWhile isSpace).reverse

/-- The left trim marker: a dash and a space right after the opening delimiter. -/
def leftMarker : List Char → Bool × List Char
  | '-' :: ' ' :: rest => (true, rest)
  | cs => (false, cs)

/-- The right trim marker: a space and a dash right before the closing delimiter. -/
def rightMarker (cs : List Char) : Bool × List Char :=
  match cs.reverse with
  | '-' :: ' ' :: rest => (true, rest.reverse)
  | _ => (false, cs)

/-- Splits the inside of an action into words separated by blanks; any other
white space inside an action is refused. -/
def splitWords : List Char → List Char → Option (List (List Char))
  | [], [] => some []
  | [], cur => some [cur.reverse]
  | c :: cs, cur =>
    if c = ' ' then
      match cur with
      | [] => splitWords cs []
      | _ => (splitWords cs []).map (fun ws => cur.reverse :: ws)
    else if c = '\t' ∨ c = '\r' ∨ c = '\n' then none
    else splitWords cs (c :: cur)

/-- The lexer: text up to the next opening delimiter, then the action up to the
closing delimiter, trim markers applied. -/
def lexItems : Nat → Bool → List Char → Option (List Item)
  | 0, _, _ => none
  | fuel + 1, trim, cs =>
    let cs := if trim then cs.dropWhile isSpace else cs
    match splitDelim '\x7b' cs with
    | none => some [Item.text cs]
    | some (pre, post) =>
      match splitDelim '\x7d' post with
      | none => none
      | some (inner, rest) =>
        let l := leftMarker inner
        let r := rightMarker l.2
        let pre := if l.1 then trimRight pre else pre
        match splitWords r.2 [] with
        | none => none
        | some ws =>
          match lexItems fuel r.1 rest with
          | none => none
          | some items => some (Item.text pre :: Item.action ws :: items)


/-- Letters, digits and the underscore. -/
def isIdentChar (c : Char) : Bool :=
  c.isAlphanum || c = '_'

/-- A variable name: one or more identifier characters. -/
def isName (cs : List Char) : Bool :=
  cs ≠ [] && cs.all isIdentChar

/-- A form key that a field chain can name. A key that starts with an
upper-case letter is left out: text/template looks such a name up among the
methods of `url.Values` before it indexes the map. -/
def isKeyName : List Char → Bool
  | [] => false
  | c :: cs => (c.isLower || c = '_') && cs.all isIdentChar

/-- A decimal index: at most nine digits, no superfluous leading zero. -/
def parseNat (cs : List Char) : Option Nat :=
  if cs ≠ [] ∧ cs.all Char.isDigit ∧ cs.length ≤ 9 ∧ (cs.length = 1 ∨ cs.head? ≠ some '0') then
    some (cs.foldl (fun n c => 10 * n + (c.toNat - 48)) 0)
  else none

/-- An interpreted string constant without escapes. -/
def parseQuoted (cs : List Char) : Option String :=
  match cs.reverse with
  | '\x22' :: body =>
    if body.all (fun c => c ≠ '\x22' && c ≠ '\x5c') then some (String.mk body.reverse) else none
  | _ => none

/-- One word of an action read as an operand. -/
def parseOperand : List Char → Option Operand
  | ['.'] => some Operand.dot
  | '$' :: name => if isName name then some (Operand.var (String.mk name)) else none
  | ['.', 'f', 'o', 'r', 'm'] => some Operand.form
  | '.' :: 'f' :: 'o' :: 'r' :: 'm' :: '.' :: key =>
    if isKeyName key then some (Operand.formKey (String.mk key)) else none
  | '\x22' :: rest => (parseQuoted rest).map Operand.str
  | w => (parseNat w).map Operand.nat

/-- Every word read as an operand. -/
def parseOperands : List (List Char) → Option (List Operand)
  | [] => some []
  | w :: ws =>
    match parseOperand w, parseOperands ws with
    | some a, some as => some (a :: as)
    | _, _ => none

/-- The words of a pipeline. -/
def parseExpr : List (List Char) → Option Expr
  | [] => none
  | w :: args =>
    if w = "eq".toList then
      match parseOperands args with
      | some (a :: b :: bs) => some (Expr.eq a (b :: bs))
      | _ => none
    else if w = "index".toList then
      match parseOperands args with
      | some [a, i] => some (Expr.index a i)
      | _ => none
    else
      match args with
      | [] => (parseOperand w).map Expr.operand
      | _ => none

/-- The static context: the type of dot and the variables in scope. -/
structure Ctx where
  dot : Ty
  vars : List (String × Ty)

/-- The type of an operand; `none` refuses it. Fields are read from the
rendering context only, that is where dot is the context itself. -/
def typeOperand (ctx : Ctx) : Operand → Option Ty
  | Operand.dot => some ctx.dot
  | Operand.var x => List.lookup x ctx.vars
  | Operand.form => if ctx.dot = Ty.data then some Ty.form else none
  | Operand.formKey _ => if ctx.dot = Ty.data then some Ty.strs else none
  | Operand.str _ => some Ty.str
  | Operand.nat _ => some Ty.int

/-- The type of a pipeline: `eq` compares strings, `index` indexes a list of
strings with an integer. -/
def typeExpr (ctx : Ctx) : Expr → Option Ty
  | Expr.operand a => typeOperand ctx a
  | Expr.eq a bs =>
    if typeOperand ctx a = some Ty.str ∧ bs.all (fun b => typeOperand ctx b = some Ty.str) then
      some Ty.bool
    else none
  | Expr.index a i =>
    if typeOperand ctx a = some Ty.strs ∧ typeOperand ctx i = some Ty.int then some Ty.str
    else none

/-- What an action is once its words are read. -/
inductive Action where
  | endA
  | elseA
  | printA (e : Expr)
  | control (body : Ctx) (mk : Node → Node → Node → Node)

/-- The variables a range declares, with the pipeline that follows them. -/
def parseDecl : List (List Char) → Option (List String × List (List Char))
  | w1 :: w2 :: w3 :: rest =>
    if w3 = ":=".toList then
      match w1.reverse, w2 with
      | ',' :: k, '$' :: v =>
        match k.reverse with
        | '$' :: k =>
          if isName k ∧ isName v ∧ k ≠ v then some ([String.mk k, String.mk v], rest) else none
        | _ => none
      | _, _ => none
    else if w2 = ":=".toList then
      match w1 with
      | '$' :: v => if isName v then some ([String.mk v], w3 :: rest) else none
      | _ => none
    else some ([], w1 :: w2 :: w3 :: rest)
  | ws => some ([], ws)

/-- The variables of a range bound to the key (or index) type and the element type. -/
def declare (vars : List String) (keyTy elemTy : Ty) : List (String × Ty) :=
  match vars with
  | [k, v] => [(v, elemTy), (k, keyTy)]
  | [v] => [(v, elemTy)]
  | _ => []

/-- Reads and type-checks one action. -/
def parseAction (ctx : Ctx) : List (List Char) → Option Action
  | [] => none
  | w :: args =>
    if w = "end".toList then (if args = [] then some Action.endA else none)
    else if w = "else".toList then (if args = [] then some Action.elseA else none)
    else if w = "if".toList then
      match parseExpr args with
      | none => none
      | some e =>
        match typeExpr ctx e with
        | some Ty.bool | some Ty.str | some Ty.strs | some Ty.form =>
          some (Action.control ctx (Node.cond e))
        | _ => none
    else if w = "range".toList then
      match parseDecl args with
      | none => none
      | some (vars, ws) =>
        match parseExpr ws with
        | none => none
        | some e =>
          match typeExpr ctx e with
          | some Ty.form =>
            some (Action.control
              { dot := Ty.strs, vars := declare vars Ty.str Ty.strs ++ ctx.vars }
              (Node.range vars e))
          | some Ty.strs =>
            some (Action.control
              { dot := Ty.str, vars := declare vars Ty.int Ty.str ++ ctx.vars }
              (Node.range vars e))
          | _ => none
    else
      match parseExpr (w :: args) with
      | none => none
      | some e => if typeExpr ctx e = some Ty.str then some (Action.printA e) else none

/-- How a list of nodes ended. -/
inductive Stop where
  | eof | elseAct | endAct
deriving DecidableEq, Repr

/-- Parses items up to the end of the input or the `else` or `end` that closes
the list, and returns the list, how it stopped and the items left. -/
def parseList : Nat → Ctx → List Item → Option (Node × Stop × List Item)
  | 0, _, _ => none
  | _ + 1, _, [] => some (Node.done, Stop.eof, [])
  | fuel + 1, ctx, Item.text s :: rest =>
    match parseList fuel ctx rest with
    | none => none
    | some (next, stop, r) => some (Node.text (String.mk s) next, stop, r)
  | fuel + 1, ctx, Item.action ws :: rest =>
    match parseAction ctx ws with
    | none => none
    | some Action.endA => some (Node.done, Stop.endAct, rest)
    | some Action.elseA => some (Node.done, Stop.elseAct, rest)
    | some (Action.printA e) =>
      match parseList fuel ctx rest with
      | none => none
      | some (next, stop, r) => some (Node.print e next, stop, r)
    | some (Action.control body mk) =>
      match parseList fuel body rest with
      | some (list, Stop.endAct, r1) =>
        match parseList fuel ctx r1 with
        | none => none
        | some (next, stop, r2) => some (mk list Node.done next, stop, r2)
      | some (list, Stop.elseAct, r1) =>
        match parseList fuel ctx r1 with
        | some (elseList, Stop.endAct, r2) =>
          match parseList fuel ctx r2 with
          | none => none
          | some (next, stop, r3) => some (mk list elseList next, stop, r3)
        | _ => none
      | _ => none

/-- Lexes and parses a template of the fragment. -/
def parseTemplate (tmpl : String) : Option Node :=
  match lexItems (tmpl.length + 1) false tmpl.toList with
  | none => none
  | some items =>
    match parseList (items.length + 1) { dot := Ty.data, vars := [] } items with
    | some (n, Stop.eof, _) => some n
    | _ => none


/-- The run-time environment: dot and the variables in scope. -/
structure Env where
  dot : Val
  vars : List (String × Val)

/-- The order of Go strings, on their characters. -/
def ltChars : List Char → List Char → Bool
  | [], [] => false
  | [], _ :: _ => true
  | _ :: _, [] => false
  | a :: as, b :: bs =>
    if a.toNat < b.toNat then true else if a.toNat = b.toNat then ltChars as bs else false

/-- Inserts a key in a strictly increasing list of keys. -/
def insertKey (k : String) : List String → List String
  | [] => [k]
  | x :: xs =>
    if ltChars k.toList x.toList then k :: x :: xs
    else if k = x then x :: xs
    else x :: insertKey k xs

/-- The keys of the map in increasing order, each once: the order in which
text/template ranges over a map. -/
def sortedKeys (v : Values) : List String :=
  List.foldr insertKey [] (List.map Prod.fst v)

/-- The entries of the map in the order of `sortedKeys`. -/
def entries (v : Values) : List (String × List String) :=
  List.map (fun k => (k, (Values.lookup v k).getD [])) (sortedKeys v)

/-- The value of an operand; `none` is an execution error. A key missing from
the form yields the nil slice. -/
def evalOperand (env : Env) : Operand → Option Val
  | Operand.dot => some env.dot
  | Operand.var x => List.lookup x env.vars
  | Operand.form =>
    match env.dot with
    | Val.data d => some (Val.form d.form)
    | _ => none
  | Operand.formKey k =>
    match env.dot with
    | Val.data d => some (Val.strs ((Values.lookup d.form k).getD []))
    | _ => none
  | Operand.str s => some (Val.str s)
  | Operand.nat n => some (Val.int n)

/-- The value of a pipeline. `eq` holds when the first argument equals one of
the others; `index` fails when the index is out of range. -/
def evalExpr (env : Env) : Expr → Option Val
  | Expr.operand a => evalOperand env a
  | Expr.eq a bs =>
    match evalOperand env a with
    | some v => some (Val.bool (bs.any (fun b => evalOperand env b = some v)))
    | none => none
  | Expr.index a i =>
    match evalOperand env a, evalOperand env i with
    | some (Val.strs l), some (Val.int n) => (l.get? n).map Val.str
    | _, _ => none

/-- Truth of a value as `if` sees it: the empty string, list and map are false. -/
def truth : Val → Bool
  | Val.bool b => b
  | Val.str s => s ≠ ""
  | Val.strs l => l ≠ []
  | Val.form m => m ≠ []
  | Val.int n => n ≠ 0
  | Val.data _ => true

/-- Runs `k` after `r`, unless `r` stopped with an error. -/
def ExecResult.andThen (r k : ExecResult) : ExecResult :=
  match r.err with
  | some _ => r
  | none => { out := r.out ++ k.out, err := k.err }

/-- Runs the iterations of a range one after the other. -/
def runAll : List ExecResult → ExecResult
  | [] => { out := "", err := none }
  | r :: rs => r.andThen (runAll rs)

/-- The environment of one iteration of a range. -/
def iteration (env : Env) (vars : List String) (key elem : Val) : Env :=
  match vars with
  | [k, v] => { dot := elem, vars := (v, elem) :: (k, key) :: env.vars }
  | [v] => { dot := elem, vars := (v, elem) :: env.vars }
  | _ => { dot := elem, vars := env.vars }

/-- An execution error: nothing more is written. -/
def execError (msg : String) : ExecResult :=
  { out := "", err := some msg }

/-- Executes a list of nodes: text is copied, an action prints its value, `if`
and `range` choose and repeat their lists. The output stops at the first error. -/
def exec : Node → Env → ExecResult
  | Node.done, _ => { out := "", err := none }
  | Node.text s next, env => ExecResult.andThen { out := s, err := none } (exec next env)
  | Node.print e next, env =>
    match evalExpr env e with
    | some (Val.str s) => ExecResult.andThen { out := s, err := none } (exec next env)
    | _ => execError "error calling function"
  | Node.cond e thenList elseList next, env =>
    match evalExpr env e with
    | some v =>
      ExecResult.andThen (if truth v then exec thenList env else exec elseList env)
        (exec next env)
    | none => execError "error calling function"
  | Node.range vars e body elseList next, env =>
    match evalExpr env e with
    | some (Val.form m) =>
      ExecResult.andThen
        (if entries m = [] then exec elseList env
         else runAll (List.map
           (fun kv => exec body (iteration env vars (Val.str kv.1) (Val.strs kv.2)))
           (entries m)))
        (exec next env)
    | some (Val.strs l) =>
      ExecResult.andThen
        (if l = [] then exec elseList env
         else runAll (List.map
           (fun ix => exec body (iteration env vars (Val.int ix.1) (Val.str ix.2)))
           (List.enum l)))
        (exec next env)
    | _ => execError "range can not iterate"

/-- The fragment as an engine. -/
def textTemplate : Engine :=
  { Parse := fun tmpl =>
      (parseTemplate tmpl).map
        (fun n => { Execute := fun data => exec n { dot := Val.data data, vars := [] } }) }

/-! ## The steps of the handler over the submitted form

`firstFailure`, `failWith`, `succWith` and `recipients` follow the words of the
specification. `renderForm`, `Valid`, `deliver` and `contract` restate the
handler over the form as it was submitted; `ServeHTTP_post` proves the
restatement equal to `ServeHTTP`.
-/

/-- The form data left for rendering once the redirect targets are read: `ok`
and `err` are deleted when their first value is not empty. -/
def renderForm (form : Values) : Values :=
  let form1 : Values := if form.Get "ok" = "" then form else form.Del "ok"
  if form.Get "err" = "" then form1 else form1.Del "err"

/-- How a failure with the given status is answered once the redirect targets
are read: a redirect to the `err` URL carrying that status, or the bare status. -/
def failWith (form : Values) (code : Nat) : Response :=
  if form.Get "err" = "" then Response.status code
  else Response.redirect (form.Get "err") code

/-- How success is answered: a redirect to the `ok` URL with status 302, or
nothing written. -/
def succWith (form : Values) : Response :=
  if form.Get "ok" = "" then Response.unwritten
  else Response.redirect (form.Get "ok") 302

/-- The To addresses: the fixed recipients followed by the custom recipient. -/
def recipients (c : FormCfg) (r : String) : List String :=
  c.Recipients ++ (if r ≠ "" then [r ++ "@" ++ c.Domain] else [])

/-- The status of the first failing check among method, form identity,
recipient syntax, recipient permission and recipient presence, in that order. -/
def firstFailure (m : Mailer) (method : String) (form : Values) : Option Nat :=
  if method ≠ "POST" then some 405
  else
    match m.ConfigGetter (form.Get "formId") with
    | none => some 404
    | some c =>
      if containsAt (form.Get "recipient") then some 403
      else if form.Get "recipient" ≠ "" ∧ c.AllowCustomRecipient = false then some 403
      else if form.Get "recipient" = "" ∧ c.Recipients = [] then some 400
      else none

/-- The form passes every validation check under configuration `c`. -/
def Valid (m : Mailer) (form : Values) (c : FormCfg) : Prop :=
  m.ConfigGetter (form.Get "formId") = some c ∧
  containsAt (form.Get "recipient") = false ∧
  (form.Get "recipient" = "" ∨ c.AllowCustomRecipient = true) ∧
  (form.Get "recipient" ≠ "" ∨ c.Recipients ≠ []) ∧
  (c.Honeypot = "" ∨ (renderForm form).Get c.Honeypot = "")

instance (m : Mailer) (form : Values) (c : FormCfg) : Decidable (Valid m form c) := by
  unfold Valid
  infer_instance

/-- The subject of a valid request: the rendered subject template, or the
default derived from the form identifier. -/
def subjectOf (E : Engine) (form : Values) (c : FormCfg) : Option String :=
  if c.Subject ≠ "" then eval E c.Subject { config := c, form := renderForm form }
  else some ("From " ++ form.Get "formId")

/-- The body of a valid request: the rendered body template, the built-in one
when none is configured. -/
def bodyOf (E : Engine) (form : Values) (c : FormCfg) : Option String :=
  eval E (if c.Body ≠ "" then c.Body else DefaultBody) { config := c, form := renderForm form }

/-- The message of a valid request. -/
def messageOf (form : Values) (c : FormCfg) (subject body : String) : Message :=
  { From := [c.From], To := recipients c (form.Get "recipient"), Subject := [subject],
    ContentType := "text/plain", Body := body }

/-- Rendering and dispatch for a form that passed validation: a template that
does not parse ends the run, otherwise one message goes to `Send`. -/
def deliver (E : Engine) (m : Mailer) (form : Values) (c : FormCfg) : Outcome :=
  match subjectOf E form c with
  | none => aborted { config := c, form := renderForm form }
  | some subject =>
    match bodyOf E form c with
    | none => aborted { config := c, form := renderForm form }
    | some body =>
      match m.Send (messageOf form c subject body) with
      | some _ =>
        { response := failWith form 500, sent := [messageOf form c subject body],
          data := some { config := c, form := renderForm form }, panicked := false }
      | none =>
        { response := succWith form, sent := [messageOf form c subject body],
          data := some { config := c, form := renderForm form }, panicked := false }

/-- The steps of the contract for a POST request whose form parsed. -/
def contract (E : Engine) (m : Mailer) (form : Values) : Outcome :=
  match m.ConfigGetter (form.Get "formId") with
  | none => rejected (failWith form 404)
  | some c =>
    if containsAt (form.Get "recipient") then rejected (failWith form 403)
    else if form.Get "recipient" ≠ "" ∧ c.AllowCustomRecipient = false then
      rejected (failWith form 403)
    else if form.Get "recipient" = "" ∧ c.Recipients = [] then rejected (failWith form 400)
    else if c.Honeypot ≠ "" ∧ (renderForm form).Get c.Honeypot ≠ "" then
      rejected (failWith form 406)
    else deliver E m form c

/-! ## The built-in body and the subject of the test, rendered -/

/-- Concatenation of a list of strings. -/
def concat : List String → String
  | [] => ""
  | s :: ss => s ++ concat ss

/-- The field names the built-in body leaves out. -/
def reservedFields : List String := ["ok", "err", "formId", "recipient"]

/-- The text of one field in the built-in body: nothing for a reserved field,
and otherwise the name, a colon and a blank, then every value on a line of its
own, each followed by an empty line. -/
def fieldText (kv : String × List String) : String :=
  if kv.1 ∈ reservedFields then ""
  else kv.1 ++ ": " ++ concat (kv.2.map (fun v => v ++ "\n\n"))

/-- The built-in body of a form: a line break, then the text of every field,
fields taken in increasing order of their names. -/
def defaultBodyText (form : Values) : String :=
  "\n" ++ concat ((entries form).map fieldText)

/-- The parse tree of `DefaultBody`. -/
def defaultBodyNode : Node :=
  Node.text "\n"
    (Node.range ["key", "value"] (Expr.operand Operand.form)
      (Node.text ""
        (Node.cond
          (Expr.eq (Operand.var "key")
            [Operand.str "ok", Operand.str "err", Operand.str "formId", Operand.str "recipient"])
          (Node.text "" Node.done)
          (Node.text ""
            (Node.print (Expr.operand (Operand.var "key"))
              (Node.text ": "
                (Node.range [] (Expr.operand (Operand.var "value"))
                  (Node.text ""
                    (Node.print (Expr.operand Operand.dot) (Node.text "\n\n" Node.done)))
                  Node.done
                  (Node.text "" Node.done)))))
          (Node.text "" Node.done)))
      Node.done
      (Node.text "" Node.done))

/-- The subject template of the repository test `TestSend`. -/
def testSubject : String := "Subject \x7b\x7bindex .form.formId 0\x7d\x7d"

/-- The parse tree of `testSubject`. -/
def testSubjectNode : Node :=
  Node.text "Subject "
    (Node.print (Expr.index (Operand.formKey "formId") (Operand.nat 0)) (Node.text "" Node.done))

/-! ## Sample inputs -/

/-- The configuration of `TestSend`. -/
def testCfg : FormCfg :=
  { From := "from@test", Domain := "", Subject := testSubject, Recipients := ["to@test"],
    AllowCustomRecipient := false, Honeypot := "", Body := "" }

/-- The form posted by `TestSend`. -/
def testForm : Values := [("formId", ["test"]), ("field1", ["value1"])]

/-- A mailer whose `Send` succeeds and whose `ConfigGetter` returns `c` for
every identifier, as the mailer of `TestSend` does. -/
def mailerOf (c : FormCfg) : Mailer :=
  { Send := fun _ => none, ConfigGetter := fun _ => some c }

/-- A mailer whose `Send` fails. -/
def failingMailer (c : FormCfg) : Mailer :=
  { Send := fun _ => some "dial tcp: connection refused", ConfigGetter := fun _ => some c }

/-- A mailer that knows no form. -/
def emptyMailer : Mailer :=
  { Send := fun _ => none, ConfigGetter := fun _ => none }

/-- A configuration with default subject and body, custom recipients allowed
and a honeypot field. -/
def contactCfg : FormCfg :=
  { From := "web@example.org", Domain := "example.org", Subject := "",
    Recipients := ["office@example.org"], AllowCustomRecipient := true, Honeypot := "website",
    Body := "" }

/-- A form with both redirect targets, a custom recipient and a free field. -/
def contactForm : Values :=
  [("formId", ["contact"]), ("ok", ["/thanks"]), ("err", ["/oops"]), ("recipient", ["sales"]),
    ("name", ["Ann"])]

/-- The form `contactForm` with the honeypot field of `contactCfg` filled in. -/
def spamForm : Values :=
  [("formId", ["contact"]), ("err", ["/oops"]), ("website", ["http://spam.example"])]

/-- The configuration `contactCfg` with `ok` as honeypot field. -/
def okHoneypotCfg : FormCfg :=
  { From := "web@example.org", Domain := "example.org", Subject := "",
    Recipients := ["office@example.org"], AllowCustomRecipient := true, Honeypot := "ok",
    Body := "" }

/-- The message the handler builds for `contactForm` under `contactCfg`. -/
def contactMessage : Message :=
  { From := ["web@example.org"], To := ["office@example.org", "sales@example.org"],
    Subject := ["From contact"], ContentType := "text/plain", Body := "\nname: Ann\n\n" }

/-- The test configuration with a subject template that lacks its closing
delimiter. -/
def brokenSubjectCfg : FormCfg :=
  { From := "from@test", Domain := "", Subject := "Message from \x7b\x7b.form.name",
    Recipients := ["to@test"], AllowCustomRecipient := false, Honeypot := "", Body := "" }

/-- The test configuration with a body template that lacks its closing
delimiter. -/
def brokenBodyCfg : FormCfg :=
  { From := "from@test", Domain := "", Subject := "", Recipients := ["to@test"],
    AllowCustomRecipient := false, Honeypot := "", Body := "Dear \x7b\x7b.form.name\x7d" }

/-! ## Strings and url.Values -/

theorem length_eq_zero_iff (s : String) : s.length = 0 ↔ s = "" := by
  cases s with
  | mk l => cases l <;> simp [String.length, String.ext_iff]

theorem length_pos_iff (s : String) : s.length > 0 ↔ s ≠ "" := by
  rw [ne_eq, ← length_eq_zero_iff]; omega

theorem append_at_ne_empty (r d : String) : r ++ "@" ++ d ≠ "" := by
  intro h
  have := congrArg String.length h
  simp at this
  exact absurd this.1.2 (by decide)

theorem lookup_Del_ne (v : Values) (k key : String) (h : key ≠ k) :
    List.lookup key (Values.Del v k) = List.lookup key v := by
  induction v with
  | nil => rfl
  | cons p ps ih =>
    obtain ⟨a, b⟩ := p
    by_cases hk : a = k
    · subst hk
      have : (key == a) = false := by simpa using h
      simp [Values.Del, List.lookup, this] at ih ⊢
      exact ih
    · by_cases hka : key = a
      · subst hka
        simp [Values.Del, List.lookup, hk]
      · have : (key == a) = false := by simpa using hka
        simp [Values.Del, List.lookup, hk, this] at ih ⊢
        exact ih

theorem lookup_Del_self (v : Values) (k : String) :
    List.lookup k (Values.Del v k) = none := by
  induction v with
  | nil => rfl
  | cons p ps ih =>
    obtain ⟨a, b⟩ := p
    by_cases hk : a = k
    · subst hk
      simp [Values.Del] at ih ⊢
      exact ih
    · have : (k == a) = false := by simpa using (Ne.symm hk)
      simp [Values.Del, List.lookup, hk, this] at ih ⊢
      exact ih

theorem Get_Del_ne (v : Values) (k key : String) (h : key ≠ k) :
    (Values.Del v k).Get key = v.Get key := by
  simp [Values.Get, lookup_Del_ne v k key h]

theorem lookup_renderForm (form : Values) (key : String) (h1 : key ≠ "ok") (h2 : key ≠ "err") :
    List.lookup key (renderForm form) = List.lookup key form := by
  unfold renderForm
  simp only []
  split <;> split <;> simp [lookup_Del_ne, h1, h2]

theorem Get_renderForm (form : Values) (key : String) (h1 : key ≠ "ok") (h2 : key ≠ "err") :
    (renderForm form).Get key = form.Get key := by
  simp [Values.Get, lookup_renderForm form key h1 h2]

/-! ## The handler follows the contract -/

/-- The handler on a POST request whose form parsed follows the contract. -/
theorem ServeHTTP_post (E : Engine) (m : Mailer) (form : Values) :
    ServeHTTP E m { Method := "POST", Form := some form } = contract E m form := by
  have hf : (renderForm form).Get "formId" = form.Get "formId" :=
    Get_renderForm form "formId" (by decide) (by decide)
  have hr : (renderForm form).Get "recipient" = form.Get "recipient" :=
    Get_renderForm form "recipient" (by decide) (by decide)
  have he : (Values.Del form "ok").Get "err" = form.Get "err" :=
    Get_Del_ne form "ok" "err" (by decide)
  unfold renderForm at hf hr
  unfold ServeHTTP contract deliver subjectOf bodyOf messageOf renderForm failWith succWith
    recipients
  simp only [] at hf hr ⊢
  by_cases hok : form.Get "ok" = "" <;> by_cases herr : form.Get "err" = ""
  all_goals simp only [hok, herr, he, length_eq_zero_iff, length_pos_iff, if_true, if_false,
    ne_eq, not_true_eq_false, not_false_eq_true] at hf hr ⊢
  all_goals try simp only [hf, hr]
  all_goals
    cases m.ConfigGetter (form.Get "formId") with
    | none => rfl
    | some c =>
      simp only []
      by_cases hat : containsAt (form.Get "recipient") = true
      · simp only [hat, if_true]
      · simp only [hat, if_false]
        by_cases hrec : form.Get "recipient" = ""
        · simp only [hrec, not_true_eq_false, decide_False, Bool.and_false, false_and, if_false,
            true_and, if_true, Bool.false_eq_true, List.length_eq_zero]
        · cases hA : c.AllowCustomRecipient
          · simp only [hrec, not_false_eq_true, decide_True, Bool.not_false, Bool.and_self,
              and_self, if_true]
          · simp only [hrec, not_false_eq_true, decide_True, Bool.not_true, Bool.false_and,
              Bool.false_eq_true, Bool.true_eq_false, if_false, if_true, append_at_ne_empty, false_and,
              and_false]

theorem ServeHTTP_method (E : Engine) (m : Mailer) (method : String) (form : Option Values)
    (h : method ≠ "POST") :
    ServeHTTP E m { Method := method, Form := form } = rejected (Response.status 405) := by
  unfold ServeHTTP
  simp only [ne_eq, h, not_false_eq_true, if_true]

theorem ServeHTTP_unparsed (E : Engine) (m : Mailer) :
    ServeHTTP E m { Method := "POST", Form := none } = rejected (Response.status 400) := by
  unfold ServeHTTP
  simp only [ne_eq, not_true_eq_false, if_false]

theorem statusCode_failWith (form : Values) (code : Nat) :
    (failWith form code).statusCode = code := by
  unfold failWith
  split <;> rfl

theorem contract_of_valid (E : Engine) (m : Mailer) (form : Values) (c : FormCfg)
    (h : Valid m form c) : contract E m form = deliver E m form c := by
  obtain ⟨hc, hat, hperm, hpres, hhp⟩ := h
  unfold contract
  simp only [hc, hat, Bool.false_eq_true, if_false]
  rw [if_neg, if_neg, if_neg]
  · intro ⟨h1, h2⟩
    rcases hhp with h | h
    · exact h1 h
    · exact h2 h
  · intro ⟨h1, h2⟩
    rcases hpres with h | h
    · exact h h1
    · exact h h2
  · intro ⟨h1, h2⟩
    rcases hperm with h | h
    · exact h1 h
    · rw [h] at h2
      exact absurd h2 (by decide)

/-- The earlier checks pass: no first failure is reported. -/
theorem firstFailure_none (m : Mailer) (form : Values) (c : FormCfg)
    (hc : m.ConfigGetter (form.Get "formId") = some c)
    (hat : containsAt (form.Get "recipient") = false)
    (hperm : form.Get "recipient" = "" ∨ c.AllowCustomRecipient = true)
    (hpres : form.Get "recipient" ≠ "" ∨ c.Recipients ≠ []) :
    firstFailure m "POST" form = none := by
  unfold firstFailure
  simp only [ne_eq, not_true_eq_false, if_false, hc, hat, Bool.false_eq_true]
  rw [if_neg, if_neg]
  · intro ⟨h1, h2⟩
    rcases hpres with h | h
    · exact h h1
    · exact h h2
  · intro ⟨h1, h2⟩
    rcases hperm with h | h
    · exact h1 h
    · rw [h] at h2
      exact absurd h2 (by decide)

theorem firstFailure_of_valid (m : Mailer) (form : Values) (c : FormCfg)
    (h : Valid m form c) : firstFailure m "POST" form = none :=
  firstFailure_none m form c h.1 h.2.1 h.2.2.1 h.2.2.2.1

/-- A form that fails validation is answered with the status of its first
failing check, the honeypot check being the last one. -/
theorem contract_of_invalid (E : Engine) (m : Mailer) (form : Values)
    (h : ∀ c, ¬ Valid m form c) :
    contract E m form = rejected (failWith form ((firstFailure m "POST" form).getD 406)) ∧
    (firstFailure m "POST" form).getD 406 ∈ [404, 403, 400, 406] := by
  unfold contract firstFailure
  simp only [ne_eq, not_true_eq_false, if_false]
  cases hc : m.ConfigGetter (form.Get "formId") with
  | none => simp
  | some c =>
    simp only []
    by_cases hat : containsAt (form.Get "recipient") = true
    · simp only [if_pos hat]
      simp
    · by_cases hperm : ¬form.Get "recipient" = "" ∧ c.AllowCustomRecipient = false
      · simp only [if_neg hat, if_pos hperm]
        simp
      · by_cases hpres : form.Get "recipient" = "" ∧ c.Recipients = []
        · simp only [if_neg hat, if_neg hperm, if_pos hpres]
          simp
        · by_cases hhp : ¬c.Honeypot = "" ∧ ¬(renderForm form).Get c.Honeypot = ""
          · simp only [if_neg hat, if_neg hperm, if_neg hpres, if_pos hhp]
            simp
          · exfalso
            apply h c
            refine ⟨hc, by simpa using hat, ?_, ?_, ?_⟩
            · by_cases h1 : form.Get "recipient" = ""
              · exact Or.inl h1
              · right
                cases hA : c.AllowCustomRecipient
                · exact absurd ⟨h1, hA⟩ hperm
                · rfl
            · by_cases h1 : form.Get "recipient" = ""
              · right
                intro h2
                exact hpres ⟨h1, h2⟩
              · exact Or.inl h1
            · by_cases h1 : c.Honeypot = ""
              · exact Or.inl h1
              · right
                by_contra h2
                exact hhp ⟨h1, h2⟩

/-- Rendering either panics, or passes exactly one message to `Send`. -/
theorem deliver_cases (E : Engine) (m : Mailer) (form : Values) (c : FormCfg) :
    ((subjectOf E form c = none ∨ bodyOf E form c = none) ∧
      deliver E m form c = aborted { config := c, form := renderForm form }) ∨
    (∃ subject body, subjectOf E form c = some subject ∧ bodyOf E form c = some body ∧
      (deliver E m form c).sent = [messageOf form c subject body] ∧
      (deliver E m form c).panicked = false ∧
      (deliver E m form c).data = some { config := c, form := renderForm form } ∧
      (deliver E m form c).response =
        (match m.Send (messageOf form c subject body) with
          | some _ => failWith form 500
          | none => succWith form)) := by
  unfold deliver
  cases hs : subjectOf E form c with
  | none => left; simp
  | some s =>
    cases hb : bodyOf E form c with
    | none => left; simp
    | some b =>
      right
      refine ⟨s, b, rfl, rfl, ?_⟩
      simp only []
      cases m.Send (messageOf form c s b) <;> simp

/-- A request other than a POST with a valid form dispatches nothing, builds
no rendering context and does not panic. -/
theorem ServeHTTP_quiet (E : Engine) (m : Mailer) (method : String) (form : Values)
    (h : method ≠ "POST" ∨ ∀ c, ¬ Valid m form c) :
    (ServeHTTP E m { Method := method, Form := some form }).sent = [] ∧
    (ServeHTTP E m { Method := method, Form := some form }).data = none ∧
    (ServeHTTP E m { Method := method, Form := some form }).panicked = false := by
  by_cases hm : method = "POST"
  · subst hm
    rcases h with h | h
    · exact absurd rfl h
    · rw [ServeHTTP_post, (contract_of_invalid E m form h).1]
      exact ⟨rfl, rfl, rfl⟩
  · rw [ServeHTTP_method E m method _ hm]
    exact ⟨rfl, rfl, rfl⟩

/-- A message reaches `Send` only from a POST request with a valid form. -/
theorem valid_of_sent (E : Engine) (m : Mailer) (method : String) (form : Values)
    (h : (ServeHTTP E m { Method := method, Form := some form }).sent ≠ []) :
    method = "POST" ∧ ∃ c, Valid m form c := by
  by_contra hn
  apply h
  apply (ServeHTTP_quiet E m method form _).1
  by_cases hm : method = "POST"
  · right
    intro c hc
    exact hn ⟨hm, c, hc⟩
  · exact Or.inl hm

/-- The handler calls `Send` at most once. -/
theorem sent_length_le_one (E : Engine) (m : Mailer) (method : String) (form : Values) :
    (ServeHTTP E m { Method := method, Form := some form }).sent.length ≤ 1 := by
  by_cases h : method ≠ "POST" ∨ ∀ c, ¬ Valid m form c
  · rw [(ServeHTTP_quiet E m method form h).1]
    simp
  · have hm : method = "POST" := by
      by_contra hm
      exact h (Or.inl hm)
    have hv : ∃ c, Valid m form c := by
      by_contra hv
      exact h (Or.inr (fun c hc => hv ⟨c, hc⟩))
    obtain ⟨c, hc⟩ := hv
    subst hm
    rw [ServeHTTP_post, contract_of_valid E m form c hc]
    rcases deliver_cases E m form c with ⟨_, h2⟩ | ⟨s, b, _, _, h2, _⟩
    · rw [h2]; simp [aborted]
    · rw [h2]; simp

/-- A template that parses renders to what `Execute` wrote, error or not. -/
theorem eval_of_parse (E : Engine) (tmpl : String) (data : Data) (t : Template)
    (h : E.Parse tmpl = some t) : eval E tmpl data = some (t.Execute data).out := by
  unfold eval
  rw [h]

/-- A template that does not parse makes `eval` panic. -/
theorem eval_of_parse_error (E : Engine) (tmpl : String) (data : Data)
    (h : E.Parse tmpl = none) : eval E tmpl data = none := by
  unfold eval
  rw [h]

/-- A valid request whose templates render passes exactly one message to `Send`. -/
theorem sent_of_valid (E : Engine) (m : Mailer) (form : Values) (c : FormCfg)
    (subject body : String) (hv : Valid m form c)
    (hs : subjectOf E form c = some subject) (hb : bodyOf E form c = some body) :
    (ServeHTTP E m { Method := "POST", Form := some form }).sent =
      [messageOf form c subject body] := by
  rw [ServeHTTP_post, contract_of_valid E m form c hv]
  rcases deliver_cases E m form c with ⟨h1, _⟩ | ⟨s, b, h1, h2, h3, _⟩
  · rcases h1 with h1 | h1
    · rw [hs] at h1; exact Option.noConfusion h1
    · rw [hb] at h1; exact Option.noConfusion h1
  · rw [hs] at h1
    rw [hb] at h2
    rw [h3, ← Option.some.inj h1, ← Option.some.inj h2]

/-- Every message sent for a valid form carries the rendered subject and body. -/
theorem message_of_sent (E : Engine) (m : Mailer) (form : Values) (c : FormCfg)
    (msg : Message) (hv : Valid m form c)
    (h : msg ∈ (ServeHTTP E m { Method := "POST", Form := some form }).sent) :
    ∃ subject body, subjectOf E form c = some subject ∧ bodyOf E form c = some body ∧
      msg = messageOf form c subject body := by
  rw [ServeHTTP_post, contract_of_valid E m form c hv] at h
  rcases deliver_cases E m form c with ⟨_, h2⟩ | ⟨s, b, h1, h2, h3, _⟩
  · rw [h2] at h
    exact absurd h (by simp [aborted])
  · rw [h3] at h
    exact ⟨s, b, h1, h2, by simpa using h⟩

/-- A valid request whose configured templates parse passes exactly one message
to `Send` and does not panic, whether or not their execution fails. -/
theorem sent_once_of_parsed (E : Engine) (m : Mailer) (form : Values) (c : FormCfg)
    (hv : Valid m form c) (hs : c.Subject ≠ "" → E.Parse c.Subject ≠ none)
    (hb : E.Parse (if c.Body ≠ "" then c.Body else DefaultBody) ≠ none) :
    (ServeHTTP E m { Method := "POST", Form := some form }).sent.length = 1 ∧
    (ServeHTTP E m { Method := "POST", Form := some form }).panicked = false := by
  have h1 : ∃ subject, subjectOf E form c = some subject := by
    unfold subjectOf
    by_cases hS : c.Subject ≠ ""
    · rw [if_pos hS]
      cases hP : E.Parse c.Subject with
      | none => exact absurd hP (hs hS)
      | some t => exact ⟨_, eval_of_parse E _ _ t hP⟩
    · rw [if_neg hS]
      exact ⟨_, rfl⟩
  have h2 : ∃ body, bodyOf E form c = some body := by
    unfold bodyOf
    cases hP : E.Parse (if c.Body ≠ "" then c.Body else DefaultBody) with
    | none => exact absurd hP hb
    | some t => exact ⟨_, eval_of_parse E _ _ t hP⟩
  obtain ⟨subject, h1⟩ := h1
  obtain ⟨body, h2⟩ := h2
  rw [ServeHTTP_post, contract_of_valid E m form c hv]
  rcases deliver_cases E m form c with ⟨h3, _⟩ | ⟨s, b, _, _, h3, h4, _⟩
  · rcases h3 with h3 | h3
    · rw [h1] at h3; exact Option.noConfusion h3
    · rw [h2] at h3; exact Option.noConfusion h3
  · rw [h3, h4]
    exact ⟨rfl, rfl⟩

/-- A valid request with a template that does not parse panics and sends nothing. -/
theorem aborted_of_valid (E : Engine) (m : Mailer) (form : Values) (c : FormCfg)
    (hv : Valid m form c) (h : subjectOf E form c = none ∨ bodyOf E form c = none) :
    ServeHTTP E m { Method := "POST", Form := some form } =
      aborted { config := c, form := renderForm form } := by
  rw [ServeHTTP_post, contract_of_valid E m form c hv]
  rcases deliver_cases E m form c with ⟨_, h2⟩ | ⟨s, b, h1, h2, _⟩
  · exact h2
  · rcases h with h | h
    · rw [h1] at h; exact Option.noConfusion h
    · rw [h2] at h; exact Option.noConfusion h

/-! ## Execution of the two templates -/

theorem parse_DefaultBody : parseTemplate DefaultBody = some defaultBodyNode := by
  decide

theorem andThen_ok (s : String) (k : ExecResult) :
    ExecResult.andThen { out := s, err := none } k = { out := s ++ k.out, err := k.err } := rfl

theorem exec_done (env : Env) : exec Node.done env = { out := "", err := none } := by
  rw [exec]

theorem exec_text (s : String) (next : Node) (env : Env) :
    exec (Node.text s next) env =
      ExecResult.andThen { out := s, err := none } (exec next env) := by
  rw [exec]

theorem exec_print (e : Expr) (next : Node) (env : Env) (s : String)
    (h : evalExpr env e = some (Val.str s)) :
    exec (Node.print e next) env =
      ExecResult.andThen { out := s, err := none } (exec next env) := by
  rw [exec, h]

theorem exec_print_error (e : Expr) (next : Node) (env : Env)
    (h : evalExpr env e = none) :
    exec (Node.print e next) env = execError "error calling function" := by
  rw [exec, h]

theorem exec_cond (e : Expr) (thenList elseList next : Node) (env : Env) (v : Val)
    (h : evalExpr env e = some v) :
    exec (Node.cond e thenList elseList next) env =
      ExecResult.andThen (if truth v then exec thenList env else exec elseList env)
        (exec next env) := by
  rw [exec, h]

theorem exec_range_strs (vars : List String) (e : Expr) (body elseList next : Node) (env : Env)
    (l : List String) (h : evalExpr env e = some (Val.strs l)) :
    exec (Node.range vars e body elseList next) env =
      ExecResult.andThen
        (if l = [] then exec elseList env
         else runAll (List.map
           (fun ix => exec body (iteration env vars (Val.int ix.1) (Val.str ix.2)))
           (List.enum l)))
        (exec next env) := by
  rw [exec, h]

theorem exec_range_form (vars : List String) (e : Expr) (body elseList next : Node) (env : Env)
    (m : Values) (h : evalExpr env e = some (Val.form m)) :
    exec (Node.range vars e body elseList next) env =
      ExecResult.andThen
        (if entries m = [] then exec elseList env
         else runAll (List.map
           (fun kv => exec body (iteration env vars (Val.str kv.1) (Val.strs kv.2)))
           (entries m)))
        (exec next env) := by
  rw [exec, h]

theorem runAll_values (env : Env) (vs : List String) (n : Nat) :
    runAll (List.map
      (fun ix => exec (Node.text "" (Node.print (Expr.operand Operand.dot)
        (Node.text "\n\n" Node.done))) (iteration env [] (Val.int ix.1) (Val.str ix.2)))
      (List.enumFrom n vs)) =
    { out := concat (vs.map (fun v => v ++ "\n\n")), err := none } := by
  induction vs generalizing n with
  | nil => rfl
  | cons v vs ih =>
    simp only [List.enumFrom, List.map, runAll, ih, concat]
    have hdot : evalExpr (iteration env [] (Val.int n) (Val.str v)) (Expr.operand Operand.dot) =
        some (Val.str v) := rfl
    simp only [exec_text, exec_print _ _ _ v hdot, exec_done, andThen_ok]
    simp [String.append_assoc]

theorem exec_valueRange (env : Env) (vs : List String)
    (h : List.lookup "value" env.vars = some (Val.strs vs)) :
    exec (Node.range [] (Expr.operand (Operand.var "value"))
        (Node.text "" (Node.print (Expr.operand Operand.dot) (Node.text "\n\n" Node.done)))
        Node.done (Node.text "" Node.done)) env =
    { out := concat (vs.map (fun v => v ++ "\n\n")), err := none } := by
  rw [exec_range_strs _ _ _ _ _ _ vs (by simp only [evalExpr, evalOperand, h]),
    List.enum, runAll_values env vs 0, exec_done, exec_text, exec_done]
  by_cases hvs : vs = []
  · subst hvs
    simp [andThen_ok, concat]
  · rw [if_neg hvs]
    simp [andThen_ok]

theorem exec_field (env : Env) (kv : String × List String) :
    exec (Node.text ""
        (Node.cond
          (Expr.eq (Operand.var "key")
            [Operand.str "ok", Operand.str "err", Operand.str "formId", Operand.str "recipient"])
          (Node.text "" Node.done)
          (Node.text ""
            (Node.print (Expr.operand (Operand.var "key"))
              (Node.text ": "
                (Node.range [] (Expr.operand (Operand.var "value"))
                  (Node.text ""
                    (Node.print (Expr.operand Operand.dot) (Node.text "\n\n" Node.done)))
                  Node.done
                  (Node.text "" Node.done)))))
          (Node.text "" Node.done)))
      (iteration env ["key", "value"] (Val.str kv.1) (Val.strs kv.2)) =
    { out := fieldText kv, err := none } := by
  obtain ⟨k, vs⟩ := kv
  have hval : List.lookup "value"
      (iteration env ["key", "value"] (Val.str k) (Val.strs vs)).vars = some (Val.strs vs) := by
    simp [iteration, List.lookup]
  have hkey : List.lookup "key"
      (iteration env ["key", "value"] (Val.str k) (Val.strs vs)).vars = some (Val.str k) := by
    have : ("key" == "value") = false := by decide
    simp [iteration, List.lookup, this]
  have heq : evalExpr (iteration env ["key", "value"] (Val.str k) (Val.strs vs))
      (Expr.eq (Operand.var "key")
        [Operand.str "ok", Operand.str "err", Operand.str "formId", Operand.str "recipient"]) =
      some (Val.bool (decide (k ∈ reservedFields))) := by
    simp only [evalExpr, evalOperand, hkey]
    simp [reservedFields, eq_comm]
  have hprint : evalExpr (iteration env ["key", "value"] (Val.str k) (Val.strs vs))
      (Expr.operand (Operand.var "key")) = some (Val.str k) := by
    simp only [evalExpr, evalOperand, hkey]
  rw [exec_text, exec_cond _ _ _ _ _ _ heq]
  simp only [exec_text, exec_done, exec_print _ _ _ k hprint, exec_valueRange _ vs hval]
  unfold fieldText
  by_cases hk : k ∈ reservedFields
  · simp [truth, hk, andThen_ok]
  · simp [truth, hk, andThen_ok, String.append_assoc]

theorem runAll_fields (env : Env) (l : List (String × List String)) :
    runAll (List.map
      (fun kv => exec (Node.text ""
        (Node.cond
          (Expr.eq (Operand.var "key")
            [Operand.str "ok", Operand.str "err", Operand.str "formId", Operand.str "recipient"])
          (Node.text "" Node.done)
          (Node.text ""
            (Node.print (Expr.operand (Operand.var "key"))
              (Node.text ": "
                (Node.range [] (Expr.operand (Operand.var "value"))
                  (Node.text ""
                    (Node.print (Expr.operand Operand.dot) (Node.text "\n\n" Node.done)))
                  Node.done
                  (Node.text "" Node.done)))))
          (Node.text "" Node.done)))
        (iteration env ["key", "value"] (Val.str kv.1) (Val.strs kv.2))) l) =
    { out := concat (l.map fieldText), err := none } := by
  induction l with
  | nil => rfl
  | cons kv l ih =>
    simp only [List.map, runAll]
    rw [ih, exec_field]
    rfl

/-- The built-in template renders every form, without error. -/
theorem exec_defaultBodyNode (data : Data) :
    exec defaultBodyNode { dot := Val.data data, vars := [] } =
      { out := defaultBodyText data.form, err := none } := by
  unfold defaultBodyNode
  rw [exec_text, exec_range_form _ _ _ _ _ _ data.form (by simp only [evalExpr, evalOperand]),
    runAll_fields, exec_done, exec_text, exec_done]
  unfold defaultBodyText
  by_cases he : entries data.form = []
  · rw [if_pos he, he]
    simp [andThen_ok, concat]
  · rw [if_neg he]
    simp [andThen_ok]

theorem eval_DefaultBody (data : Data) :
    eval textTemplate DefaultBody data = some (defaultBodyText data.form) := by
  unfold eval textTemplate
  simp only [parse_DefaultBody, Option.map_some', exec_defaultBodyNode]

theorem parse_testSubject : parseTemplate testSubject = some testSubjectNode := by
  decide

/-- The subject template of the test renders the first `formId` value after the
text; without such a value the execution stops after the text. -/
theorem exec_testSubjectNode (data : Data) :
    (exec testSubjectNode { dot := Val.data data, vars := [] }).out =
      "Subject " ++ data.form.Get "formId" := by
  unfold testSubjectNode
  rw [exec_text]
  unfold Values.Get
  cases h : List.lookup "formId" data.form with
  | none =>
    rw [exec_print_error _ _ _ (by simp [evalExpr, evalOperand, Values.lookup, h])]
    simp [andThen_ok, execError]
  | some l =>
    cases l with
    | nil =>
      rw [exec_print_error _ _ _ (by simp [evalExpr, evalOperand, Values.lookup, h])]
      simp [andThen_ok, execError]
    | cons x xs =>
      rw [exec_print _ _ _ x (by simp [evalExpr, evalOperand, Values.lookup, h]), exec_text,
        exec_done]
      simp [andThen_ok]

theorem eval_testSubject (E : Engine) (data : Data)
    (hE : E.Parse testSubject = textTemplate.Parse testSubject) :
    eval E testSubject data = some ("Subject " ++ data.form.Get "formId") := by
  unfold eval
  rw [hE]
  unfold textTemplate
  simp only [parse_testSubject, Option.map_some', exec_testSubjectNode]

/-! ## Dispatch -/

/-- C1, at the failing input: the form of the test passes every validation
check under a configuration whose subject template does not parse, and the
handler panics in `eval` without calling `Send`. -/
theorem unparsable_subject_sends_nothing :
    Valid (mailerOf brokenSubjectCfg) testForm brokenSubjectCfg ∧
    (textTemplate.Parse brokenSubjectCfg.Subject).isSome = false ∧
    (ServeHTTP textTemplate (mailerOf brokenSubjectCfg)
      { Method := "POST", Form := some testForm }).sent = [] ∧
    (ServeHTTP textTemplate (mailerOf brokenSubjectCfg)
      { Method := "POST", Form := some testForm }).panicked = true := by
  decide

/-! ## Validation order -/

/-- C2: for a request whose form parsed, the status reported is that of the
first failing check in the order method (405), form identity (404), recipient
syntax (403), recipient permission (403), recipient presence (400), whatever
the later checks, the honeypot, the templates and `Send` would do; nothing is
sent and no rendering context is built. -/
theorem first_failing_check_status (E : Engine) (m : Mailer) (method : String) (form : Values)
    (s : Nat) (h : firstFailure m method form = some s) :
    (ServeHTTP E m { Method := method, Form := some form }).response.statusCode = s ∧
    (ServeHTTP E m { Method := method, Form := some form }).sent = [] ∧
    (ServeHTTP E m { Method := method, Form := some form }).data = none ∧
    (ServeHTTP E m { Method := method, Form := some form }).panicked = false := by
  by_cases hm : method = "POST"
  · subst hm
    have hv : ∀ c, ¬ Valid m form c := by
      intro c hc
      rw [firstFailure_of_valid m form c hc] at h
      exact Option.noConfusion h
    rw [ServeHTTP_post, (contract_of_invalid E m form hv).1, h]
    exact ⟨statusCode_failWith form s, rfl, rfl, rfl⟩
  · have hs : s = 405 := by
      unfold firstFailure at h
      rw [if_pos hm] at h
      exact (Option.some.inj h).symm
    rw [ServeHTTP_method E m method _ hm, hs]
    exact ⟨rfl, rfl, rfl, rfl⟩

/-- One request for each of the five checks of C2. -/
theorem first_failing_check_status_witness :
    (firstFailure (mailerOf contactCfg) "GET" contactForm = some 405 ∧
      (ServeHTTP textTemplate (mailerOf contactCfg)
        { Method := "GET", Form := some contactForm }).response.statusCode = 405) ∧
    (firstFailure emptyMailer "POST" [("formId", ["nope"]), ("recipient", ["a@b"])] = some 404 ∧
      (ServeHTTP textTemplate emptyMailer
        { Method := "POST", Form := some [("formId", ["nope"]), ("recipient", ["a@b"])] }
        ).response.statusCode = 404) ∧
    (firstFailure (mailerOf testCfg) "POST" [("recipient", ["a@b"])] = some 403 ∧
      (ServeHTTP textTemplate (mailerOf testCfg)
        { Method := "POST", Form := some [("recipient", ["a@b"])] }).response.statusCode = 403) ∧
    (firstFailure (mailerOf testCfg) "POST" [("recipient", ["sales"])] = some 403 ∧
      (ServeHTTP textTemplate (mailerOf testCfg)
        { Method := "POST", Form := some [("recipient", ["sales"])] }).response.statusCode = 403) ∧
    (firstFailure (mailerOf brokenSubjectCfg) "POST" [] = none ∧
      firstFailure (mailerOf { brokenSubjectCfg with Recipients := [] }) "POST" [] = some 400 ∧
      (ServeHTTP textTemplate (mailerOf { brokenSubjectCfg with Recipients := [] })
        { Method := "POST", Form := some [] }).response.statusCode = 400) :=
  ⟨⟨by decide, (first_failing_check_status textTemplate (mailerOf contactCfg) "GET" contactForm
      405 (by decide)).1⟩,
    ⟨by decide, (first_failing_check_status textTemplate emptyMailer "POST" _ 404 (by decide)).1⟩,
    ⟨by decide, (first_failing_check_status textTemplate (mailerOf testCfg) "POST" _ 403
      (by decide)).1⟩,
    ⟨by decide, (first_failing_check_status textTemplate (mailerOf testCfg) "POST" _ 403
      (by decide)).1⟩,
    ⟨by decide, by decide, (first_failing_check_status textTemplate
      (mailerOf { brokenSubjectCfg with Recipients := [] }) "POST" _ 400 (by decide)).1⟩⟩

/-- C3 fails as stated: a POST request whose recipient contains an at sign and
whose formId has no configuration is answered with 404. -/
theorem recipient_with_at_unknown_form :
    containsAt (Values.Get [("formId", ["nope"]), ("recipient", ["a@b"])] "recipient") = true ∧
    (ServeHTTP textTemplate emptyMailer
      { Method := "POST", Form := some [("formId", ["nope"]), ("recipient", ["a@b"])] }
      ).response.statusCode = 404 := by
  decide

/-- C3, as amended: for a POST request whose form parsed and whose formId has a
configuration, a recipient containing an at sign is answered with status 403
whatever the other fields and the configuration hold, and nothing is sent. -/
theorem recipient_with_at_forbidden (E : Engine) (m : Mailer) (form : Values) (c : FormCfg)
    (hc : m.ConfigGetter (form.Get "formId") = some c)
    (hat : containsAt (form.Get "recipient") = true) :
    (ServeHTTP E m { Method := "POST", Form := some form }).response.statusCode = 403 ∧
    (ServeHTTP E m { Method := "POST", Form := some form }).sent = [] := by
  have hf : firstFailure m "POST" form = some 403 := by
    unfold firstFailure
    simp only [ne_eq, not_true_eq_false, if_false, hc, if_pos hat]
  have hv : ∀ c2, ¬ Valid m form c2 := by
    intro c2 h2
    rw [h2.2.1] at hat
    exact Bool.noConfusion hat
  rw [ServeHTTP_post, (contract_of_invalid E m form hv).1, hf]
  exact ⟨statusCode_failWith form 403, rfl⟩

/-- A recipient with an at sign under a known form, with an `err` URL supplied. -/
theorem recipient_with_at_forbidden_witness :
    (mailerOf contactCfg).ConfigGetter
      (Values.Get [("formId", ["contact"]), ("recipient", ["a@b"]), ("err", ["/oops"])] "formId") =
      some contactCfg ∧
    containsAt
      (Values.Get [("formId", ["contact"]), ("recipient", ["a@b"]), ("err", ["/oops"])]
        "recipient") = true ∧
    (ServeHTTP textTemplate (mailerOf contactCfg)
      { Method := "POST",
        Form := some [("formId", ["contact"]), ("recipient", ["a@b"]), ("err", ["/oops"])] }
      ).response.statusCode = 403 ∧
    (ServeHTTP textTemplate (mailerOf contactCfg)
      { Method := "POST",
        Form := some [("formId", ["contact"]), ("recipient", ["a@b"]), ("err", ["/oops"])] }
      ).sent = [] :=
  ⟨by decide, by decide,
    recipient_with_at_forbidden textTemplate (mailerOf contactCfg) _ contactCfg (by decide)
      (by decide)⟩

/-- C4 fails as stated: with `ok` as honeypot field, a submitted `ok` value is
taken out as redirect target before the honeypot check and the message is sent;
and a honeypot field whose first value is empty and whose second value is not
passes the check as well. -/
theorem honeypot_missed :
    (okHoneypotCfg.Honeypot ≠ "" ∧
      Values.Get [("formId", ["contact"]), ("ok", ["/thanks"])] okHoneypotCfg.Honeypot ≠ "" ∧
      firstFailure (mailerOf okHoneypotCfg) "POST"
        [("formId", ["contact"]), ("ok", ["/thanks"])] = none ∧
      (ServeHTTP textTemplate (mailerOf okHoneypotCfg)
        { Method := "POST", Form := some [("formId", ["contact"]), ("ok", ["/thanks"])] }
        ).response = Response.redirect "/thanks" 302 ∧
      (ServeHTTP textTemplate (mailerOf okHoneypotCfg)
        { Method := "POST", Form := some [("formId", ["contact"]), ("ok", ["/thanks"])] }
        ).sent.length = 1) ∧
    (contactCfg.Honeypot = "website" ∧
      Values.lookup [("formId", ["contact"]), ("website", ["", "http://spam.example"])]
        "website" = some ["", "http://spam.example"] ∧
      firstFailure (mailerOf contactCfg) "POST"
        [("formId", ["contact"]), ("website", ["", "http://spam.example"])] = none ∧
      (ServeHTTP textTemplate (mailerOf contactCfg)
        { Method := "POST",
          Form := some [("formId", ["contact"]), ("website", ["", "http://spam.example"])] }
        ).response.statusCode = 200 ∧
      (ServeHTTP textTemplate (mailerOf contactCfg)
        { Method := "POST",
          Form := some [("formId", ["contact"]), ("website", ["", "http://spam.example"])] }
        ).sent.length = 1) := by
  decide

/-- C4, as amended: when the earlier checks pass, the honeypot of the
configuration is a field name other than the empty one, `ok` and `err`, and the
first value submitted for that field is not empty, the request fails with
status 406 and nothing is sent. -/
theorem honeypot_not_acceptable (E : Engine) (m : Mailer) (form : Values) (c : FormCfg)
    (hc : m.ConfigGetter (form.Get "formId") = some c)
    (hat : containsAt (form.Get "recipient") = false)
    (hperm : form.Get "recipient" = "" ∨ c.AllowCustomRecipient = true)
    (hpres : form.Get "recipient" ≠ "" ∨ c.Recipients ≠ [])
    (hname : c.Honeypot ≠ "") (hok : c.Honeypot ≠ "ok") (herr : c.Honeypot ≠ "err")
    (hval : form.Get c.Honeypot ≠ "") :
    (ServeHTTP E m { Method := "POST", Form := some form }).response.statusCode = 406 ∧
    (ServeHTTP E m { Method := "POST", Form := some form }).sent = [] := by
  have hv : ∀ c2, ¬ Valid m form c2 := by
    intro c2 h2
    have hcc : c2 = c := Option.some.inj (h2.1.symm.trans hc)
    subst hcc
    rcases h2.2.2.2.2 with h | h
    · exact hname h
    · rw [Get_renderForm form c2.Honeypot hok herr] at h
      exact hval h
  rw [ServeHTTP_post, (contract_of_invalid E m form hv).1,
    firstFailure_none m form c hc hat hperm hpres]
  exact ⟨statusCode_failWith form 406, rfl⟩

/-- The honeypot field `website` of `contactCfg`, filled in. -/
theorem honeypot_not_acceptable_witness :
    (contactCfg.Honeypot ≠ "" ∧ Values.Get spamForm contactCfg.Honeypot ≠ "") ∧
    (ServeHTTP textTemplate (mailerOf contactCfg)
      { Method := "POST", Form := some spamForm }).response.statusCode = 406 ∧
    (ServeHTTP textTemplate (mailerOf contactCfg)
      { Method := "POST", Form := some spamForm }).sent = [] :=
  ⟨by decide,
    honeypot_not_acceptable textTemplate (mailerOf contactCfg) spamForm contactCfg (by decide)
      (by decide) (by decide) (by decide) (by decide) (by decide) (by decide) (by decide)⟩

/-! ## The redirect protocol -/

/-- C5: a request that is not a POST gets the bare status 405, and a POST whose
form does not parse the bare status 400, whatever `err` holds. For a POST whose
form parsed: a failed validation is answered by `failWith` with the status of
the failing check (404, 403, 400 or 406), a `Send` error by `failWith` with 500,
and a successful `Send` by `succWith`; `failWith` redirects to the `err` URL with
the failure status when that URL is not empty and writes the bare status
otherwise, `succWith` redirects to the `ok` URL with 302 when that URL is not
empty and otherwise writes nothing (status 200, no body). -/
theorem redirect_protocol (E : Engine) (m : Mailer) (method : String) (form : Values) :
    (method ≠ "POST" →
      (ServeHTTP E m { Method := method, Form := some form }).response = Response.status 405) ∧
    (ServeHTTP E m { Method := "POST", Form := none }).response = Response.status 400 ∧
    (method = "POST" →
      (ServeHTTP E m { Method := method, Form := some form }).panicked = false →
      (ServeHTTP E m { Method := method, Form := some form }).sent = [] →
      (firstFailure m "POST" form).getD 406 ∈ [404, 403, 400, 406] ∧
      (ServeHTTP E m { Method := method, Form := some form }).response =
        failWith form ((firstFailure m "POST" form).getD 406)) ∧
    (method = "POST" → ∀ msg,
      (ServeHTTP E m { Method := method, Form := some form }).sent = [msg] →
      (m.Send msg ≠ none →
        (ServeHTTP E m { Method := method, Form := some form }).response = failWith form 500) ∧
      (m.Send msg = none →
        (ServeHTTP E m { Method := method, Form := some form }).response = succWith form)) ∧
    (∀ code, (form.Get "err" ≠ "" → failWith form code = Response.redirect (form.Get "err") code) ∧
      (form.Get "err" = "" → failWith form code = Response.status code)) ∧
    (form.Get "ok" ≠ "" → succWith form = Response.redirect (form.Get "ok") 302) ∧
    (form.Get "ok" = "" → succWith form = Response.unwritten ∧
      Response.statusCode Response.unwritten = 200) := by
  refine ⟨?_, ?_, ?_, ?_, ?_, ?_, ?_⟩
  · intro hm
    rw [ServeHTTP_method E m method _ hm]
    rfl
  · rw [ServeHTTP_unparsed]
    rfl
  · intro hm hp hs
    subst hm
    by_cases hv : ∃ c, Valid m form c
    · obtain ⟨c, hc⟩ := hv
      rw [ServeHTTP_post, contract_of_valid E m form c hc] at hp hs
      rcases deliver_cases E m form c with ⟨_, h2⟩ | ⟨s, b, _, _, h2, _⟩
      · rw [h2] at hp
        exact absurd hp (by simp [aborted])
      · rw [h2] at hs
        exact absurd hs (by simp)
    · have hv2 : ∀ c, ¬ Valid m form c := fun c hc => hv ⟨c, hc⟩
      have := contract_of_invalid E m form hv2
      rw [ServeHTTP_post, this.1]
      exact ⟨this.2, rfl⟩
  · intro hm msg hs
    subst hm
    have hne : (ServeHTTP E m { Method := "POST", Form := some form }).sent ≠ [] := by
      rw [hs]; simp
    obtain ⟨_, c, hc⟩ := valid_of_sent E m "POST" form hne
    rw [ServeHTTP_post, contract_of_valid E m form c hc] at hs ⊢
    rcases deliver_cases E m form c with ⟨_, h2⟩ | ⟨s, b, _, _, h2, _, _, h5⟩
    · rw [h2] at hs
      exact absurd hs (by simp [aborted])
    · rw [h2] at hs
      have hmsg : messageOf form c s b = msg := by simpa using hs
      rw [hmsg] at h5
      rw [h5]
      constructor
      · intro hsend
        cases hS : m.Send msg with
        | none => exact absurd hS hsend
        | some e => rfl
      · intro hsend
        rw [hsend]
  · intro code
    unfold failWith
    constructor
    · intro h; rw [if_neg h]
    · intro h; rw [if_pos h]
  · intro h
    unfold succWith
    rw [if_neg h]
  · intro h
    unfold succWith
    rw [if_pos h]
    exact ⟨rfl, rfl⟩

/-- The five forms of response: bare 405, redirect with 406, redirect with 500,
redirect with 302 and nothing written. -/
theorem redirect_protocol_witness :
    (ServeHTTP textTemplate (mailerOf contactCfg)
      { Method := "GET", Form := some contactForm }).response = Response.status 405 ∧
    (ServeHTTP textTemplate (mailerOf contactCfg)
      { Method := "POST", Form := some spamForm }).response = Response.redirect "/oops" 406 ∧
    (ServeHTTP textTemplate (failingMailer contactCfg)
      { Method := "POST", Form := some contactForm }).response = Response.redirect "/oops" 500 ∧
    (ServeHTTP textTemplate (mailerOf contactCfg)
      { Method := "POST", Form := some contactForm }).response = Response.redirect "/thanks" 302 ∧
    (ServeHTTP textTemplate (mailerOf testCfg)
      { Method := "POST", Form := some testForm }).response = Response.unwritten :=
  ⟨(redirect_protocol textTemplate (mailerOf contactCfg) "GET" contactForm).1 (by decide),
    ((redirect_protocol textTemplate (mailerOf contactCfg) "POST" spamForm).2.2.1 rfl (by decide)
      (by decide)).2,
    ((redirect_protocol textTemplate (failingMailer contactCfg) "POST" contactForm).2.2.2.1 rfl
      contactMessage (by decide)).1 (by decide),
    ((redirect_protocol textTemplate (mailerOf contactCfg) "POST" contactForm).2.2.2.1 rfl
      contactMessage (by decide)).2 (by decide),
    ((redirect_protocol textTemplate (mailerOf testCfg) "POST" testForm).2.2.2.1 rfl
      { From := ["from@test"], To := ["to@test"], Subject := ["Subject test"],
        ContentType := "text/plain", Body := "\nfield1: value1\n\n" } (by decide)).2 (by decide)⟩

/-! ## Recipients -/

/-- C6: every message passed to `Send` has as To header the fixed recipients of
the configuration in configured order, followed by the single address made of
the submitted recipient, an at sign and the configured domain when the submitted
recipient is not empty, and by nothing when it is empty. The list is not empty,
the submitted recipient holds no at sign, and every address is a fixed recipient
or that custom address. -/
theorem to_header_of_sent (E : Engine) (m : Mailer) (method : String) (form : Values)
    (msg : Message) (h : msg ∈ (ServeHTTP E m { Method := method, Form := some form }).sent) :
    ∃ c, m.ConfigGetter (form.Get "formId") = some c ∧
      msg.To = c.Recipients ++
        (if form.Get "recipient" ≠ "" then [form.Get "recipient" ++ "@" ++ c.Domain] else []) ∧
      msg.To ≠ [] ∧
      containsAt (form.Get "recipient") = false ∧
      ∀ a ∈ msg.To, a ∈ c.Recipients ∨
        (form.Get "recipient" ≠ "" ∧ a = form.Get "recipient" ++ "@" ++ c.Domain) := by
  have hne : (ServeHTTP E m { Method := method, Form := some form }).sent ≠ [] :=
    List.ne_nil_of_mem h
  obtain ⟨hm, c, hc⟩ := valid_of_sent E m method form hne
  subst hm
  rw [ServeHTTP_post, contract_of_valid E m form c hc] at h
  rcases deliver_cases E m form c with ⟨_, h2⟩ | ⟨s, b, _, _, h2, _⟩
  · rw [h2] at h
    exact absurd h (by simp [aborted])
  · rw [h2] at h
    have hmsg : msg = messageOf form c s b := by simpa using h
    obtain ⟨hcfg, hat, _, hpres, _⟩ := hc
    refine ⟨c, hcfg, ?_, ?_, hat, ?_⟩
    · rw [hmsg]
      rfl
    · rw [hmsg]
      show recipients c (form.Get "recipient") ≠ []
      unfold recipients
      rcases hpres with h1 | h1
      · rw [if_pos h1]
        simp
      · intro h3
        exact h1 (List.append_eq_nil.mp h3).1
    · intro a ha
      rw [hmsg] at ha
      have ha2 : a ∈ recipients c (form.Get "recipient") := ha
      unfold recipients at ha2
      rcases List.mem_append.mp ha2 with h1 | h1
      · exact Or.inl h1
      · right
        by_cases hr : form.Get "recipient" = ""
        · rw [if_neg (by simpa using hr)] at h1
          exact absurd h1 (by simp)
        · rw [if_pos hr] at h1
          exact ⟨hr, by simpa using h1⟩

/-- The fixed recipient followed by the custom one. -/
theorem to_header_of_sent_witness :
    contactMessage ∈ (ServeHTTP textTemplate (mailerOf contactCfg)
      { Method := "POST", Form := some contactForm }).sent ∧
    contactMessage.To = ["office@example.org", "sales@example.org"] ∧
    ∃ c, (mailerOf contactCfg).ConfigGetter (contactForm.Get "formId") = some c ∧
      contactMessage.To = c.Recipients ++
        (if contactForm.Get "recipient" ≠ "" then
          [contactForm.Get "recipient" ++ "@" ++ c.Domain] else []) ∧
      contactMessage.To ≠ [] ∧
      containsAt (contactForm.Get "recipient") = false ∧
      ∀ a ∈ contactMessage.To, a ∈ c.Recipients ∨
        (contactForm.Get "recipient" ≠ "" ∧ a = contactForm.Get "recipient" ++ "@" ++ c.Domain) :=
  ⟨by decide, rfl,
    to_header_of_sent textTemplate (mailerOf contactCfg) "POST" contactForm contactMessage
      (by decide)⟩

/-! ## Rendering -/

/-- C7: the built-in `DefaultBody` template renders every form to a line break
followed by the text of every field, fields in increasing order of their names:
nothing for `ok`, `err`, `formId` and `recipient`, and for any other field its
name, a colon and a blank, then its values in submission order, each on a line
of its own and each followed by an empty line, which also sets the fields
apart. The form `formId=f`, `field1=value1` renders to the line
`field1: value1` between a line break and an empty line. -/
theorem default_body_text (c : FormCfg) (form : Values) :
    eval textTemplate DefaultBody { config := c, form := form } =
      some ("\n" ++ concat ((entries form).map fieldText)) ∧
    (∀ k vs, k ∈ ["ok", "err", "formId", "recipient"] → fieldText (k, vs) = "") ∧
    (∀ k vs, k ∉ ["ok", "err", "formId", "recipient"] →
      fieldText (k, vs) = k ++ ": " ++ concat (vs.map (fun v => v ++ "\n\n"))) ∧
    eval textTemplate DefaultBody
      { config := c, form := [("formId", ["f"]), ("field1", ["value1"])] } =
      some "\nfield1: value1\n\n" ∧
    (∀ (m : Mailer) (method : String) (msg : Message),
      m.ConfigGetter (form.Get "formId") = some c → c.Body = "" →
      msg ∈ (ServeHTTP textTemplate m { Method := method, Form := some form }).sent →
      msg.Body = "\n" ++ concat ((entries (renderForm form)).map fieldText)) := by
  refine ⟨eval_DefaultBody _, ?_, ?_, ?_, ?_⟩
  · intro k vs hk
    unfold fieldText reservedFields
    rw [if_pos hk]
  · intro k vs hk
    unfold fieldText reservedFields
    rw [if_neg hk]
  · rw [eval_DefaultBody]
    show some (defaultBodyText [("formId", ["f"]), ("field1", ["value1"])]) = _
    decide
  · intro m method msg hc hB hmsg
    obtain ⟨hm, c2, hv⟩ := valid_of_sent textTemplate m method form (List.ne_nil_of_mem hmsg)
    have hcc : c2 = c := Option.some.inj (hv.1.symm.trans hc)
    subst hcc hm
    obtain ⟨subject, body, _, hb, hmsg2⟩ := message_of_sent textTemplate m form c2 msg hv hmsg
    unfold bodyOf at hb
    rw [hB, if_neg (by decide), eval_DefaultBody] at hb
    rw [hmsg2, ← Option.some.inj hb]
    rfl

/-- A two-valued field, and the body sent for `contactForm`. -/
theorem default_body_text_witness :
    "name" ∉ ["ok", "err", "formId", "recipient"] ∧
    fieldText ("name", ["Ann", "Bob"]) =
      "name" ++ ": " ++ concat (["Ann", "Bob"].map (fun v => v ++ "\n\n")) ∧
    "name" ++ ": " ++ concat (["Ann", "Bob"].map (fun v => v ++ "\n\n")) =
      "name: Ann\n\nBob\n\n" ∧
    (contactMessage ∈ (ServeHTTP textTemplate (mailerOf contactCfg)
      { Method := "POST", Form := some contactForm }).sent ∧
      contactMessage.Body = "\n" ++ concat ((entries (renderForm contactForm)).map fieldText) ∧
      "\n" ++ concat ((entries (renderForm contactForm)).map fieldText) = "\nname: Ann\n\n") :=
  ⟨by decide, (default_body_text contactCfg contactForm).2.2.1 "name" ["Ann", "Bob"] (by decide),
    by decide,
    by decide,
    (default_body_text contactCfg contactForm).2.2.2.2 (mailerOf contactCfg) "POST"
      contactMessage rfl rfl (by decide),
    by decide⟩

/-- C8: for a valid POST request under a configuration whose subject template
is the one of the test, every message sent has the Subject header made of the
text of the template followed by the submitted formId, and one message is sent
when the body template parses; with no subject template the header is the
default made from the submitted formId. The formId field is still in the form
data of the rendering context. The engine is any one that parses the test
template as text/template does. -/
theorem subject_header (E : Engine) (m : Mailer) (form : Values) (c : FormCfg)
    (hE : E.Parse testSubject = textTemplate.Parse testSubject) (hv : Valid m form c) :
    (c.Subject = testSubject →
      (∀ msg ∈ (ServeHTTP E m { Method := "POST", Form := some form }).sent,
        msg.Subject = ["Subject " ++ form.Get "formId"]) ∧
      (E.Parse (if c.Body ≠ "" then c.Body else DefaultBody) ≠ none →
        (ServeHTTP E m { Method := "POST", Form := some form }).sent.length = 1)) ∧
    (c.Subject = "" →
      (∀ msg ∈ (ServeHTTP E m { Method := "POST", Form := some form }).sent,
        msg.Subject = ["From " ++ form.Get "formId"]) ∧
      (E.Parse (if c.Body ≠ "" then c.Body else DefaultBody) ≠ none →
        (ServeHTTP E m { Method := "POST", Form := some form }).sent.length = 1)) ∧
    (∀ d, (ServeHTTP E m { Method := "POST", Form := some form }).data = some d →
      Values.lookup d.form "formId" = Values.lookup form "formId") := by
  have hbody : E.Parse (if c.Body ≠ "" then c.Body else DefaultBody) ≠ none →
      ∃ body, bodyOf E form c = some body := by
    intro hp
    cases hP : E.Parse (if c.Body ≠ "" then c.Body else DefaultBody) with
    | none => exact absurd hP hp
    | some t => exact ⟨_, eval_of_parse E _ _ t hP⟩
  have hone : ∀ subject, subjectOf E form c = some subject →
      (∀ msg ∈ (ServeHTTP E m { Method := "POST", Form := some form }).sent,
        msg.Subject = [subject]) ∧
      (E.Parse (if c.Body ≠ "" then c.Body else DefaultBody) ≠ none →
        (ServeHTTP E m { Method := "POST", Form := some form }).sent.length = 1) := by
    intro subject hs
    constructor
    · intro msg hmsg
      obtain ⟨s, b, h1, _, h3⟩ := message_of_sent E m form c msg hv hmsg
      rw [hs] at h1
      rw [h3, ← Option.some.inj h1]
      rfl
    · intro hp
      obtain ⟨body, hb⟩ := hbody hp
      rw [sent_of_valid E m form c subject body hv hs hb]
      rfl
  refine ⟨?_, ?_, ?_⟩
  · intro hS
    apply hone
    unfold subjectOf
    rw [hS, if_pos (by decide), eval_testSubject E _ hE]
    simp only [Get_renderForm form "formId" (by decide) (by decide)]
  · intro hS
    apply hone
    unfold subjectOf
    rw [hS, if_neg (by decide)]
  · intro d hd
    by_cases hq : subjectOf E form c = none ∨ bodyOf E form c = none
    · rw [aborted_of_valid E m form c hv hq] at hd
      have := Option.some.inj hd
      rw [← this]
      exact lookup_renderForm form "formId" (by decide) (by decide)
    · rw [ServeHTTP_post, contract_of_valid E m form c hv] at hd
      rcases deliver_cases E m form c with ⟨h1, _⟩ | ⟨s, b, _, _, _, _, h2, _⟩
      · exact absurd h1 hq
      · rw [h2] at hd
        have := Option.some.inj hd
        rw [← this]
        exact lookup_renderForm form "formId" (by decide) (by decide)

/-- The request of `TestSend`: the subject is `Subject test`. -/
theorem subject_header_witness :
    Valid (mailerOf testCfg) testForm testCfg ∧
    (∀ msg ∈ (ServeHTTP textTemplate (mailerOf testCfg)
        { Method := "POST", Form := some testForm }).sent,
      msg.Subject = ["Subject " ++ testForm.Get "formId"]) ∧
    "Subject " ++ testForm.Get "formId" = "Subject test" ∧
    (ServeHTTP textTemplate (mailerOf testCfg)
      { Method := "POST", Form := some testForm }).sent.length = 1 :=
  ⟨by decide,
    ((subject_header textTemplate (mailerOf testCfg) testForm testCfg rfl (by decide)).1 rfl).1,
    by decide,
    ((subject_header textTemplate (mailerOf testCfg) testForm testCfg rfl (by decide)).1 rfl).2
      (by unfold textTemplate; rw [if_neg (by decide)]; simp [parse_DefaultBody])⟩

/-- C9 fails as stated: the rendering context of the request of `TestSend`
still has the entry for `formId`, and an `ok` field submitted empty stays in
the form data. -/
theorem formId_in_rendering_context :
    (ServeHTTP textTemplate (mailerOf testCfg)
      { Method := "POST", Form := some testForm }).data =
      some { config := testCfg, form := [("formId", ["test"]), ("field1", ["value1"])] } ∧
    Values.lookup [("formId", ["test"]), ("field1", ["value1"])] "formId" = some ["test"] ∧
    (ServeHTTP textTemplate (mailerOf testCfg)
      { Method := "POST", Form := some [("formId", ["test"]), ("ok", [""])] }).data =
      some { config := testCfg, form := [("formId", ["test"]), ("ok", [""])] } := by
  decide

/-- C9, as amended: in the rendering context the form has no entry for `ok` when
the first submitted `ok` value is not empty and none for `err` when the first
submitted `err` value is not empty; every other entry is the submitted one, all
values in order. That covers `formId` and `recipient`, which are not removed,
and an `ok` or `err` field whose first value is empty. -/
theorem rendering_form (E : Engine) (m : Mailer) (method : String) (form : Values) (d : Data)
    (h : (ServeHTTP E m { Method := method, Form := some form }).data = some d) :
    (form.Get "ok" ≠ "" → Values.lookup d.form "ok" = none) ∧
    (form.Get "err" ≠ "" → Values.lookup d.form "err" = none) ∧
    (∀ key, (key = "ok" → form.Get "ok" = "") → (key = "err" → form.Get "err" = "") →
      Values.lookup d.form key = Values.lookup form key) ∧
    Values.lookup d.form "formId" = Values.lookup form "formId" ∧
    Values.lookup d.form "recipient" = Values.lookup form "recipient" := by
  have hd : d.form = renderForm form := by
    by_cases hq : method ≠ "POST" ∨ ∀ c, ¬ Valid m form c
    · rw [(ServeHTTP_quiet E m method form hq).2.1] at h
      exact Option.noConfusion h
    · have hm : method = "POST" := by
        by_contra hm
        exact hq (Or.inl hm)
      have hv : ∃ c, Valid m form c := by
        by_contra hv
        exact hq (Or.inr (fun c hc => hv ⟨c, hc⟩))
      obtain ⟨c, hc⟩ := hv
      subst hm
      rw [ServeHTTP_post, contract_of_valid E m form c hc] at h
      rcases deliver_cases E m form c with ⟨_, h2⟩ | ⟨s, b, _, _, _, _, h2, _⟩
      · rw [h2] at h
        have := Option.some.inj h
        rw [← this]
      · rw [h2] at h
        have := Option.some.inj h
        rw [← this]
  have key : ∀ key, (key = "ok" → form.Get "ok" = "") → (key = "err" → form.Get "err" = "") →
      Values.lookup d.form key = Values.lookup form key := by
    intro key h1 h2
    rw [hd]
    unfold renderForm Values.lookup
    simp only []
    by_cases hok : form.Get "ok" = "" <;> by_cases herr : form.Get "err" = ""
    · rw [if_pos herr, if_pos hok]
    · rw [if_neg herr, if_pos hok]
      exact lookup_Del_ne form "err" key (fun hk => herr (h2 hk))
    · rw [if_pos herr, if_neg hok]
      exact lookup_Del_ne form "ok" key (fun hk => hok (h1 hk))
    · rw [if_neg herr, if_neg hok, lookup_Del_ne _ "err" key (fun hk => herr (h2 hk))]
      exact lookup_Del_ne form "ok" key (fun hk => hok (h1 hk))
  refine ⟨?_, ?_, key, ?_, ?_⟩
  · intro hok
    rw [hd]
    unfold renderForm Values.lookup
    simp only []
    by_cases herr : form.Get "err" = ""
    · rw [if_pos herr, if_neg hok]
      exact lookup_Del_self form "ok"
    · rw [if_neg herr, if_neg hok, lookup_Del_ne _ "err" "ok" (by decide)]
      exact lookup_Del_self form "ok"
  · intro herr
    rw [hd]
    unfold renderForm Values.lookup
    simp only []
    rw [if_neg herr]
    exact lookup_Del_self _ "err"
  · exact key "formId" (fun hk => absurd hk (by decide)) (fun hk => absurd hk (by decide))
  · exact key "recipient" (fun hk => absurd hk (by decide)) (fun hk => absurd hk (by decide))

/-- The rendering context of `contactForm`: `ok` and `err` are gone, `name` is kept. -/
theorem rendering_form_witness :
    (ServeHTTP textTemplate (mailerOf contactCfg)
      { Method := "POST", Form := some contactForm }).data =
      some { config := contactCfg,
             form := [("formId", ["contact"]), ("recipient", ["sales"]), ("name", ["Ann"])] } ∧
    Values.lookup [("formId", ["contact"]), ("recipient", ["sales"]), ("name", ["Ann"])] "ok" =
      none ∧
    Values.lookup [("formId", ["contact"]), ("recipient", ["sales"]), ("name", ["Ann"])] "err" =
      none ∧
    Values.lookup [("formId", ["contact"]), ("recipient", ["sales"]), ("name", ["Ann"])] "name" =
      Values.lookup contactForm "name" :=
  ⟨by decide,
    (rendering_form textTemplate (mailerOf contactCfg) "POST" contactForm
      { config := contactCfg,
        form := [("formId", ["contact"]), ("recipient", ["sales"]), ("name", ["Ann"])] }
      (by decide)).1 (by decide),
    (rendering_form textTemplate (mailerOf contactCfg) "POST" contactForm
      { config := contactCfg,
        form := [("formId", ["contact"]), ("recipient", ["sales"]), ("name", ["Ann"])] }
      (by decide)).2.1 (by decide),
    (rendering_form textTemplate (mailerOf contactCfg) "POST" contactForm
      { config := contactCfg,
        form := [("formId", ["contact"]), ("recipient", ["sales"]), ("name", ["Ann"])] }
      (by decide)).2.2.1 "name" (fun h => absurd h (by decide)) (fun h => absurd h (by decide))⟩

/-- C10, at the failing input: `eval` on a template that does not parse panics
instead of returning the empty string, and a request that passes validation
under a configuration with such a body template sends nothing. -/
theorem unparsable_template_panics :
    eval textTemplate "Dear \x7b\x7b.form.name\x7d" { config := brokenBodyCfg, form := testForm } = none ∧
    Valid (mailerOf brokenBodyCfg) testForm brokenBodyCfg ∧
    (ServeHTTP textTemplate (mailerOf brokenBodyCfg)
      { Method := "POST", Form := some testForm }).sent = [] ∧
    (ServeHTTP textTemplate (mailerOf brokenBodyCfg)
      { Method := "POST", Form := some testForm }).panicked = true := by
  decide

end Postmail
